import Mathlib

set_option maxRecDepth 100000
set_option maxHeartbeats 1000000
set_option linter.unusedVariables false

/-!
Verification of the loan amortization engine in `app.py` and `app_par_actual.py`.

Modelling decisions:

* Python `Decimal` values (context precision 28) are modelled as exact rationals `ℚ`;
  every monetary rounding point in the source is an explicit
  `value.quantize(Decimal("0.01"), rounding=ROUND_HALF_UP)`, modelled by `quantize_money`.
  The 28-significant-digit context rounding of intermediate results is modelled as exact
  arithmetic (the spec, §9, itself describes the arithmetic as arbitrary precision decimal
  with explicit rounding at the listed monetary steps).
  Because Mathlib's `Rat` operations are `@[irreducible]`, the engine is written with
  kernel-computable wrappers `qadd`/`qsub`/`qmul`/`qdiv`, each proved equal to the
  corresponding field operation on `ℚ`.
* Python `datetime.date` is modelled by `Date`/`mkDate`: the constructor raises `ValueError`
  unless `1 <= year <= 9999`, `1 <= month <= 12` and `1 <= day <= days-in-month`; this is
  modelled by `mkDate` returning `Option Date`, and functions that construct dates
  (`add_months`, hence `build_schedule`) are `Option`-valued.
  `d1 - d2` on dates (in whole days) is `dateOrd d1 - dateOrd d2` where `dateOrd` is the
  proleptic Gregorian ordinal, exactly as `datetime.date.toordinal`.
* `calendar.monthrange(y, m)[1]` is `daysInMonth y m` (only ever called with `m ∈ [1,12]`).
-/

/-! ## Exact decimal arithmetic (Python `decimal.Decimal`, exact, with explicit rounding) -/

/-- Kernel-computable addition on `ℚ` (equal to `+`, see `qadd_eq`). -/
def qadd (a b : ℚ) : ℚ := mkRat (a.num * b.den + b.num * a.den) (a.den * b.den)

/-- Kernel-computable subtraction on `ℚ` (equal to `-`, see `qsub_eq`). -/
def qsub (a b : ℚ) : ℚ := mkRat (a.num * b.den - b.num * a.den) (a.den * b.den)

/-- Kernel-computable multiplication on `ℚ` (equal to `*`, see `qmul_eq`). -/
def qmul (a b : ℚ) : ℚ := mkRat (a.num * b.num) (a.den * b.den)

/-- Kernel-computable inverse on `ℚ` (equal to `⁻¹`, see `qinv_eq`). -/
def qinv (a : ℚ) : ℚ := Rat.divInt (a.den : Int) a.num

/-- Kernel-computable division on `ℚ` (equal to `/`, see `qdiv_eq`). -/
def qdiv (a b : ℚ) : ℚ := qmul a (qinv b)

theorem qadd_eq (a b : ℚ) : qadd a b = a + b := (Rat.add_def' a b).symm

theorem qsub_eq (a b : ℚ) : qsub a b = a - b := (Rat.sub_def' a b).symm

theorem qmul_eq (a b : ℚ) : qmul a b = a * b := by
  rw [qmul, Rat.mul_def, Rat.normalize_eq_mkRat]

theorem qinv_eq (a : ℚ) : qinv a = a⁻¹ := by
  rw [qinv, ← Rat.inv_def]; rfl

theorem qdiv_eq (a b : ℚ) : qdiv a b = a / b := by
  rw [qdiv, qmul_eq, qinv_eq, div_eq_mul_inv]

/-- Rounding a rational to the nearest integer, ties away from zero: Python's
`ROUND_HALF_UP` applied at exponent 0. -/
def roundHalfUpInt (q : ℚ) : Int :=
  if 0 ≤ q then Rat.floor (qadd q (mkRat 1 2)) else -(Rat.floor (qadd (-q) (mkRat 1 2)))

/-- `value.quantize(Decimal("0.01"), rounding=ROUND_HALF_UP)` from `app.py` line 55-56
(and identically `app_par_actual.py` line 56-57). -/
def quantize_money (q : ℚ) : ℚ := qdiv ((roundHalfUpInt (qmul 100 q) : Int) : ℚ) 100

theorem ratFloor_eq_floor (q : ℚ) : Rat.floor q = ⌊q⌋ := by
  rw [Rat.floor_def' q, Rat.floor_def]

theorem roundHalfUpInt_eq (q : ℚ) :
    roundHalfUpInt q = if 0 ≤ q then ⌊q + 1/2⌋ else -⌊-q + 1/2⌋ := by
  have h2 : (mkRat 1 2 : ℚ) = 1/2 := by norm_num [Rat.mkRat_eq_div]
  rw [roundHalfUpInt, qadd_eq, qadd_eq, ratFloor_eq_floor, ratFloor_eq_floor, h2]

theorem quantize_money_eq (q : ℚ) :
    quantize_money q = ((roundHalfUpInt (100 * q) : Int) : ℚ) / 100 := by
  rw [quantize_money, qdiv_eq, qmul_eq]

theorem roundHalfUpInt_nonneg {q : ℚ} (h : 0 ≤ q) : 0 ≤ roundHalfUpInt q := by
  rw [roundHalfUpInt_eq, if_pos h]
  exact Int.le_floor.mpr (by push_cast; linarith)

theorem quantize_money_nonneg {q : ℚ} (h : 0 ≤ q) : 0 ≤ quantize_money q := by
  rw [quantize_money_eq]
  have h1 : 0 ≤ roundHalfUpInt (100 * q) := roundHalfUpInt_nonneg (by linarith)
  positivity

theorem quantize_money_zero : quantize_money 0 = 0 := by decide

/-! ## Calendar model (`datetime.date`, `calendar.monthrange`) -/

/-- A (possibly not yet validated) year/month/day triple. Python's `datetime.date`
only ever holds validated triples; validation lives in `mkDate`. -/
structure Date where
  year : Int
  month : Int
  day : Int
deriving DecidableEq, Repr

/-- Python `calendar.isleap`. -/
def isLeap (y : Int) : Bool :=
  (y.emod 4 == 0 && y.emod 100 != 0) || y.emod 400 == 0

/-- `calendar.monthrange(y, m)[1]`: number of days of month `m` of year `y`
(only meaningful for `m ∈ [1,12]`, the only way the sources call it). -/
def daysInMonth (y m : Int) : Int :=
  if m = 2 then (if isLeap y then 29 else 28)
  else if m = 4 ∨ m = 6 ∨ m = 9 ∨ m = 11 then 30
  else 31

theorem one_le_daysInMonth (y m : Int) : 1 ≤ daysInMonth y m := by
  rw [daysInMonth]
  split
  · split <;> omega
  · split <;> omega

/-- Validity of a `Date` exactly as checked by the `datetime.date` constructor
(which raises `ValueError` otherwise): `datetime.MINYEAR = 1`, `datetime.MAXYEAR = 9999`. -/
def Date.validP (d : Date) : Prop :=
  1 ≤ d.year ∧ d.year ≤ 9999 ∧ 1 ≤ d.month ∧ d.month ≤ 12 ∧
    1 ≤ d.day ∧ d.day ≤ daysInMonth d.year d.month

instance (d : Date) : Decidable d.validP := by
  unfold Date.validP; infer_instance

/-- The `datetime.date(year, month, day)` constructor: `some` of the date if the triple is
valid, `none` (a raised `ValueError`) otherwise. -/
def mkDate (y m d : Int) : Option Date :=
  if (Date.mk y m d).validP then some ⟨y, m, d⟩ else none

/-- Days in all years before year `y` (`datetime`'s `_days_before_year`);
`Int.fdiv` is Python's floor division `//`. -/
def daysBeforeYear (y : Int) : Int :=
  365 * (y - 1) + (y - 1).fdiv 4 - (y - 1).fdiv 100 + (y - 1).fdiv 400

/-- Days in all months of year `y` strictly before month `m`
(`datetime`'s `_days_before_month`, for `m ∈ [1,12]`). -/
def daysBeforeMonth (y m : Int) : Int :=
  (if 1 < m then 31 else 0) + (if 2 < m then (if isLeap y then 29 else 28) else 0) +
  (if 3 < m then 31 else 0) + (if 4 < m then 30 else 0) + (if 5 < m then 31 else 0) +
  (if 6 < m then 30 else 0) + (if 7 < m then 31 else 0) + (if 8 < m then 31 else 0) +
  (if 9 < m then 30 else 0) + (if 10 < m then 31 else 0) + (if 11 < m then 30 else 0)

/-- `datetime.date.toordinal`: day 1 is 0001-01-01. Subtraction of dates in whole days,
`(d1 - d2).days`, is `dateOrd d1 - dateOrd d2`. -/
def dateOrd (d : Date) : Int :=
  daysBeforeYear d.year + daysBeforeMonth d.year d.month + d.day

/-- Python's `<` on `datetime.date` (lexicographic on year, month, day). -/
def dateLtb (a b : Date) : Bool :=
  decide (a.year < b.year ∨ (a.year = b.year ∧
    (a.month < b.month ∨ (a.month = b.month ∧ a.day < b.day))))

/-- `add_months` from `app.py` lines 59-65 (identical in `app_par_actual.py` lines 60-66).
`Int.fdiv`/`Int.emod` are Python's `//` and `%` on integers; the final `date(...)`
construction is `mkDate` and can fail (raise) exactly when the triple is invalid. -/
def add_months (base_date : Date) (months : Int) (cycle_day : Int) : Option Date :=
  let month_index := base_date.month - 1 + months
  let year := base_date.year + month_index.fdiv 12
  let month := month_index.emod 12 + 1
  let last_day := daysInMonth year month
  let day := min cycle_day last_day
  mkDate year month day

/-! ## Schedule rows and the amortization engine -/

/-- `ScheduleRow` dataclass, `app.py` lines 29-42 (identical in `app_par_actual.py`).
`None`-able fields are `Option`s. -/
structure ScheduleRow where
  loan_number : String
  period : Int
  payment_date : Option Date
  days : Option Int
  projected_close_date : Option Date
  beginning_balance : ℚ
  daily_interest : Option ℚ
  interest : Option ℚ
  payment : Option ℚ
  principal : Option ℚ
  extra_interest : Option ℚ
  ending_balance : ℚ
deriving DecidableEq, Repr

/-- One iteration of the payment-period loop, `app.py` lines 117-153 (identical in
`app_par_actual.py` lines 128-164), given the resolved `payment_date` for this period. -/
def stepRow (ln : String) (N : Int) (rate pay : ℚ) (extra : Option ℚ)
    (period : Int) (balance : ℚ) (prev pd : Date) : ScheduleRow :=
  let days : Int := dateOrd pd - dateOrd prev
  let daily_interest : ℚ := quantize_money (qdiv (qmul (qdiv rate 100) balance) 365)
  let day_interest : ℚ := quantize_money (qmul daily_interest (days : ℚ))
  let interest : ℚ :=
    if period = 1 then
      match extra with
      | some e => quantize_money (qadd day_interest e)
      | none => day_interest
    else day_interest
  let payment0 : ℚ :=
    if period = 1 then
      match extra with
      | some e => qadd pay e
      | none => pay
    else pay
  let payment : ℚ :=
    if period = N then qadd balance interest
    else if qadd balance interest < payment0 then qadd balance interest else payment0
  let principal : ℚ := qsub payment interest
  let eb : ℚ := quantize_money (qsub balance principal)
  let ending : ℚ := if eb < 0 then 0 else eb
  { loan_number := ln, period := period, payment_date := some pd, days := some days,
    projected_close_date := none, beginning_balance := balance,
    daily_interest := some daily_interest, interest := some interest,
    payment := some payment, principal := some principal,
    extra_interest := none, ending_balance := ending }

/-- The `for period in range(1, periods_months + 1)` loop of `build_schedule`
(`app.py` lines 111-156): `fuel` is the number of remaining iterations, `period` the
current 1-based period index. Period 1's payment date is `first_payment_date` verbatim;
later periods resolve via `add_months`, whose failure (raised `ValueError`) aborts the
whole call. -/
def buildLoop (ln : String) (N : Int) (fpd : Date) (cd : Int) (rate pay : ℚ)
    (extra : Option ℚ) : Nat → Int → ℚ → Date → Option (List ScheduleRow)
  | 0, _, _, _ => some []
  | fuel + 1, period, balance, prev =>
    match (if period = 1 then some fpd else add_months fpd (period - 1) cd) with
    | none => none
    | some pd =>
      match buildLoop ln N fpd cd rate pay extra fuel (period + 1)
          (stepRow ln N rate pay extra period balance prev pd).ending_balance pd with
      | none => none
      | some rest => some (stepRow ln N rate pay extra period balance prev pd :: rest)

/-- The extra-interest proration block, `app.py` lines 99-108 (with
`interest_start_date` as the start date) and `app_par_actual.py` lines 110-119 (with the
derived `actual_interest_start_date`). `balance` is the already-quantized principal. -/
def extraInterestOf (pcd : Option Date) (startDate : Date) (rate balance : ℚ) : Option ℚ :=
  match pcd with
  | none => none
  | some p =>
    let ed0 : Int := dateOrd startDate - dateOrd p
    let extra_days : Int := if ed0 < 0 then 0 else ed0
    let extra_daily_interest := quantize_money (qdiv (qmul (qdiv rate 100) balance) 365)
    some (quantize_money (qmul extra_daily_interest (extra_days : ℚ)))

/-- The period-0 snapshot row, `app.py` lines 82-97, with the post-hoc
`rows[0].extra_interest` assignment of line 108 folded in (two-phase construction,
as the spec's §9 suggests). -/
def period0Row (ln : String) (pcd : Option Date) (startDate : Date) (balance : ℚ)
    (extra : Option ℚ) : ScheduleRow :=
  { loan_number := ln, period := 0, payment_date := some startDate, days := none,
    projected_close_date := pcd, beginning_balance := balance,
    daily_interest := none, interest := none, payment := none, principal := none,
    extra_interest := extra, ending_balance := balance }

/-- Common body of `build_schedule` in both sources, parameterized by the date used as
period-0 date, extra-interest reference and accrual start: `app.py` (lines 79-158) uses
the input `interest_start_date` there; `app_par_actual.py` (lines 93-169) uses its derived
`actual_interest_start_date`. Everything else is line-for-line identical between the two. -/
def buildScheduleFrom (ln : String) (N : Int) (pcd : Option Date) (startDate fpd : Date)
    (cd : Int) (rate amt pay : ℚ) : Option (List ScheduleRow) :=
  let balance := quantize_money amt
  let extra := extraInterestOf pcd startDate rate balance
  match buildLoop ln N fpd cd rate pay extra N.toNat 1 balance startDate with
  | none => none
  | some rest => some (period0Row ln pcd startDate balance extra :: rest)

namespace App

/-- `build_schedule` from `app.py` lines 68-158. -/
def build_schedule (loan_number : String) (periods_months : Int)
    (projected_close_date : Option Date) (interest_start_date first_payment_date : Date)
    (cycle_day : Int) (annual_rate_percent loan_amount monthly_payment : ℚ) :
    Option (List ScheduleRow) :=
  buildScheduleFrom loan_number periods_months projected_close_date interest_start_date
    first_payment_date cycle_day annual_rate_percent loan_amount monthly_payment

end App

namespace AppParActual

/-- `build_schedule` from `app_par_actual.py` lines 69-169. Lines 83-91 derive
`actual_interest_start_date` (one month before `first_payment_date` on the same
day-of-month, replaced by `projected_close_date` when that is later); the rest of the
function is `app.py`'s body with that derived date in place of `interest_start_date`,
which is otherwise unused. -/
def build_schedule (loan_number : String) (periods_months : Int)
    (projected_close_date : Option Date) (interest_start_date first_payment_date : Date)
    (cycle_day : Int) (annual_rate_percent loan_amount monthly_payment : ℚ) :
    Option (List ScheduleRow) :=
  match add_months first_payment_date (-1) first_payment_date.day with
  | none => none
  | some calcStart =>
    buildScheduleFrom loan_number periods_months projected_close_date
      (match projected_close_date with
       | some p => if dateLtb calcStart p then p else calcStart
       | none => calcStart)
      first_payment_date cycle_day annual_rate_percent loan_amount monthly_payment

end AppParActual

/-! ## Helper lemmas about the engine -/

theorem stepRow_period (ln : String) (N : Int) (rate pay : ℚ) (extra : Option ℚ)
    (period : Int) (balance : ℚ) (prev pd : Date) :
    (stepRow ln N rate pay extra period balance prev pd).period = period := rfl

theorem stepRow_beginning (ln : String) (N : Int) (rate pay : ℚ) (extra : Option ℚ)
    (period : Int) (balance : ℚ) (prev pd : Date) :
    (stepRow ln N rate pay extra period balance prev pd).beginning_balance = balance := rfl

theorem stepRow_extra (ln : String) (N : Int) (rate pay : ℚ) (extra : Option ℚ)
    (period : Int) (balance : ℚ) (prev pd : Date) :
    (stepRow ln N rate pay extra period balance prev pd).extra_interest = none := rfl

theorem clamp_nonneg (x : ℚ) : 0 ≤ (if x < 0 then (0 : ℚ) else x) := by
  split
  · exact le_refl 0
  · next h => exact le_of_not_lt h

theorem stepRow_ending_nonneg (ln : String) (N : Int) (rate pay : ℚ) (extra : Option ℚ)
    (period : Int) (balance : ℚ) (prev pd : Date) :
    0 ≤ (stepRow ln N rate pay extra period balance prev pd).ending_balance := by
  unfold stepRow
  dsimp only
  exact clamp_nonneg _

theorem payoff_ending (b i : ℚ) :
    (if quantize_money (qsub b (qsub (qadd b i) i)) < 0 then 0
     else quantize_money (qsub b (qsub (qadd b i) i))) = 0 := by
  have h : qsub b (qsub (qadd b i) i) = 0 := by
    rw [qsub_eq, qsub_eq, qadd_eq]; ring
  rw [h, quantize_money_zero, if_neg (lt_irrefl 0)]

theorem stepRow_payoff (ln : String) (N : Int) (rate pay : ℚ) (extra : Option ℚ)
    (balance : ℚ) (prev pd : Date) :
    ∃ i, (stepRow ln N rate pay extra N balance prev pd).interest = some i ∧
      (stepRow ln N rate pay extra N balance prev pd).payment = some (balance + i) ∧
      (stepRow ln N rate pay extra N balance prev pd).ending_balance = 0 := by
  unfold stepRow
  dsimp only
  rw [if_pos (rfl : (N : Int) = N)]
  exact ⟨_, rfl, by rw [qadd_eq], payoff_ending _ _⟩

theorem buildLoop_length_periods (ln : String) (N : Int) (fpd : Date) (cd : Int)
    (rate pay : ℚ) (extra : Option ℚ) :
    ∀ (fuel : Nat) (period : Int) (balance : ℚ) (prev : Date) (l : List ScheduleRow),
      buildLoop ln N fpd cd rate pay extra fuel period balance prev = some l →
      l.length = fuel ∧ ∀ (i : Nat) (r : ScheduleRow), l[i]? = some r → r.period = period + i := by
  intro fuel
  induction fuel with
  | zero =>
    intro period balance prev l h
    simp only [buildLoop, Option.some.injEq] at h
    subst h
    exact ⟨rfl, by intro i r hr; simp at hr⟩
  | succ fuel ih =>
    intro period balance prev l h
    simp only [buildLoop] at h
    split at h
    · exact absurd h (by simp)
    · rename_i pd hpd
      split at h
      · exact absurd h (by simp)
      · rename_i rest hrec
        simp only [Option.some.injEq] at h
        subst h
        obtain ⟨hlen, hper⟩ := ih (period + 1)
          (stepRow ln N rate pay extra period balance prev pd).ending_balance pd rest hrec
        refine ⟨by simp [hlen], ?_⟩
        intro i r hr
        cases i with
        | zero =>
          simp only [List.getElem?_cons_zero, Option.some.injEq] at hr
          subst hr
          simp [stepRow_period]
        | succ i =>
          simp only [List.getElem?_cons_succ] at hr
          have := hper i r hr
          omega

theorem buildLoop_ending_nonneg (ln : String) (N : Int) (fpd : Date) (cd : Int)
    (rate pay : ℚ) (extra : Option ℚ) :
    ∀ (fuel : Nat) (period : Int) (balance : ℚ) (prev : Date) (l : List ScheduleRow),
      buildLoop ln N fpd cd rate pay extra fuel period balance prev = some l →
      ∀ r ∈ l, 0 ≤ r.ending_balance := by
  intro fuel
  induction fuel with
  | zero =>
    intro period balance prev l h
    simp only [buildLoop, Option.some.injEq] at h
    subst h
    intro r hr
    simp at hr
  | succ fuel ih =>
    intro period balance prev l h
    simp only [buildLoop] at h
    split at h
    · exact absurd h (by simp)
    · rename_i pd hpd
      split at h
      · exact absurd h (by simp)
      · rename_i rest hrec
        simp only [Option.some.injEq] at h
        subst h
        intro r hr
        rcases List.mem_cons.mp hr with hr | hr
        · subst hr; exact stepRow_ending_nonneg ln N rate pay extra period balance prev pd
        · exact ih (period + 1) _ pd rest hrec r hr

theorem buildLoop_extra_none (ln : String) (N : Int) (fpd : Date) (cd : Int)
    (rate pay : ℚ) (extra : Option ℚ) :
    ∀ (fuel : Nat) (period : Int) (balance : ℚ) (prev : Date) (l : List ScheduleRow),
      buildLoop ln N fpd cd rate pay extra fuel period balance prev = some l →
      ∀ r ∈ l, r.extra_interest = none := by
  intro fuel
  induction fuel with
  | zero =>
    intro period balance prev l h
    simp only [buildLoop, Option.some.injEq] at h
    subst h
    intro r hr
    simp at hr
  | succ fuel ih =>
    intro period balance prev l h
    simp only [buildLoop] at h
    split at h
    · exact absurd h (by simp)
    · rename_i pd hpd
      split at h
      · exact absurd h (by simp)
      · rename_i rest hrec
        simp only [Option.some.injEq] at h
        subst h
        intro r hr
        rcases List.mem_cons.mp hr with hr | hr
        · subst hr; exact stepRow_extra ln N rate pay extra period balance prev pd
        · exact ih (period + 1) _ pd rest hrec r hr

/-- Balance continuity along a row list: the first row (if any) begins at `b`, and each
row begins at the previous row's ending balance. -/
def Chained : ℚ → List ScheduleRow → Prop
  | _, [] => True
  | b, r :: rs => r.beginning_balance = b ∧ Chained r.ending_balance rs

theorem buildLoop_chained (ln : String) (N : Int) (fpd : Date) (cd : Int)
    (rate pay : ℚ) (extra : Option ℚ) :
    ∀ (fuel : Nat) (period : Int) (balance : ℚ) (prev : Date) (l : List ScheduleRow),
      buildLoop ln N fpd cd rate pay extra fuel period balance prev = some l →
      Chained balance l := by
  intro fuel
  induction fuel with
  | zero =>
    intro period balance prev l h
    simp only [buildLoop, Option.some.injEq] at h
    subst h
    trivial
  | succ fuel ih =>
    intro period balance prev l h
    simp only [buildLoop] at h
    split at h
    · exact absurd h (by simp)
    · rename_i pd hpd
      split at h
      · exact absurd h (by simp)
      · rename_i rest hrec
        simp only [Option.some.injEq] at h
        subst h
        exact ⟨stepRow_beginning ln N rate pay extra period balance prev pd,
          ih (period + 1) _ pd rest hrec⟩

theorem Chained.adjacent :
    ∀ (l : List ScheduleRow) (b : ℚ), Chained b l →
      ∀ (i : Nat) (ri rj : ScheduleRow), l[i]? = some ri → l[i + 1]? = some rj →
        ri.ending_balance = rj.beginning_balance := by
  intro l
  induction l with
  | nil => intro b _ i ri rj hi _; simp at hi
  | cons x xs ih =>
    intro b hc i ri rj hi hj
    cases i with
    | zero =>
      simp only [List.getElem?_cons_zero, Option.some.injEq] at hi
      subst hi
      simp only [List.getElem?_cons_succ] at hj
      cases xs with
      | nil => simp at hj
      | cons y t =>
        simp only [List.getElem?_cons_zero, Option.some.injEq] at hj
        subst hj
        exact (hc.2.1).symm
    | succ i =>
      simp only [List.getElem?_cons_succ] at hi hj
      exact ih x.ending_balance hc.2 i ri rj hi hj

theorem buildLoop_last_payoff (ln : String) (N : Int) (fpd : Date) (cd : Int)
    (rate pay : ℚ) (extra : Option ℚ) :
    ∀ (fuel : Nat) (period : Int) (balance : ℚ) (prev : Date) (l : List ScheduleRow),
      1 ≤ fuel → period + (fuel : Int) = N + 1 →
      buildLoop ln N fpd cd rate pay extra fuel period balance prev = some l →
      ∃ r i, l.getLast? = some r ∧ r.interest = some i ∧
        r.payment = some (r.beginning_balance + i) ∧ r.ending_balance = 0 := by
  intro fuel
  induction fuel with
  | zero => intro _ _ _ _ hf _ _; omega
  | succ fuel ih =>
    intro period balance prev l hf hNf h
    simp only [buildLoop] at h
    split at h
    · exact absurd h (by simp)
    · rename_i pd hpd
      split at h
      · exact absurd h (by simp)
      · rename_i rest hrec
        simp only [Option.some.injEq] at h
        subst h
        cases fuel with
        | zero =>
          have hperiod : period = N := by omega
          simp only [buildLoop, Option.some.injEq] at hrec
          subst hrec
          rw [hperiod]
          obtain ⟨i, h1, h2, h3⟩ := stepRow_payoff ln N rate pay extra balance prev pd
          exact ⟨stepRow ln N rate pay extra N balance prev pd, i, by simp, h1,
            by rw [h2, stepRow_beginning], h3⟩
        | succ fuel =>
          obtain ⟨r, i, hlast, h1, h2, h3⟩ := ih (period + 1) _ pd rest (by omega)
            (by omega) hrec
          cases rest with
          | nil => simp at hlast
          | cons y t =>
            refine ⟨r, i, ?_, h1, h2, h3⟩
            rw [List.getLast?_cons_cons]
            exact hlast

/-- Inversion for `buildScheduleFrom`: a successful run is the period-0 row followed by a
successful loop run. -/
theorem buildScheduleFrom_inv (ln : String) (N : Int) (pcd : Option Date)
    (startDate fpd : Date) (cd : Int) (rate amt pay : ℚ) (rows : List ScheduleRow)
    (h : buildScheduleFrom ln N pcd startDate fpd cd rate amt pay = some rows) :
    ∃ rest,
      buildLoop ln N fpd cd rate pay (extraInterestOf pcd startDate rate (quantize_money amt))
        N.toNat 1 (quantize_money amt) startDate = some rest ∧
      rows = period0Row ln pcd startDate (quantize_money amt)
        (extraInterestOf pcd startDate rate (quantize_money amt)) :: rest := by
  dsimp only [buildScheduleFrom] at h
  split at h
  · exact absurd h (by simp)
  · rename_i rest hl
    simp only [Option.some.injEq] at h
    exact ⟨rest, hl, h.symm⟩

/-- Shared fact: with a positive cycle day and a target year inside `datetime`'s
representable range, `add_months` succeeds and returns exactly the carried month with the
clamped day. -/
theorem add_months_eq (b : Date) (months cycle_day : Int) (hcd : 1 ≤ cycle_day)
    (hy1 : 1 ≤ b.year + (b.month - 1 + months).fdiv 12)
    (hy2 : b.year + (b.month - 1 + months).fdiv 12 ≤ 9999) :
    add_months b months cycle_day =
      some ⟨b.year + (b.month - 1 + months).fdiv 12,
        (b.month - 1 + months).emod 12 + 1,
        min cycle_day (daysInMonth (b.year + (b.month - 1 + months).fdiv 12)
          ((b.month - 1 + months).emod 12 + 1))⟩ := by
  have hval : (Date.mk (b.year + (b.month - 1 + months).fdiv 12)
      ((b.month - 1 + months).emod 12 + 1)
      (min cycle_day (daysInMonth (b.year + (b.month - 1 + months).fdiv 12)
        ((b.month - 1 + months).emod 12 + 1)))).validP := by
    unfold Date.validP
    dsimp only
    refine ⟨hy1, hy2, ?_, ?_, ?_, ?_⟩
    · show 1 ≤ (b.month - 1 + months) % 12 + 1
      omega
    · show (b.month - 1 + months) % 12 + 1 ≤ 12
      omega
    · exact le_min hcd (one_le_daysInMonth _ _)
    · exact min_le_right _ _
  unfold add_months
  dsimp only
  rw [mkDate, if_pos hval]

/-- C7 counterexample: the claim asserts `add_months` has no failure mode for every
integer cycle day, but cycle day `0` makes the `date(...)` construction raise
(day-of-month 0), modelled as `none`. -/
theorem C7_counterexample : add_months ⟨2024, 1, 15⟩ 0 0 = none := by decide

/-- C7 (amended): `add_months` is pure and total — it returns a date — for every base
date and every integer month offset and cycle day, provided the cycle day is at least 1
and the carried target year stays inside `datetime`'s representable range 1..9999;
outside those bounds the `date(...)` construction raises. -/
theorem C7_resolver_totality (b : Date) (months cycle_day : Int)
    (hcd : 1 ≤ cycle_day)
    (hy1 : 1 ≤ b.year + (b.month - 1 + months).fdiv 12)
    (hy2 : b.year + (b.month - 1 + months).fdiv 12 ≤ 9999) :
    ∃ d, add_months b months cycle_day = some d :=
  ⟨_, add_months_eq b months cycle_day hcd hy1 hy2⟩

theorem C7_witness : (add_months ⟨2024, 11, 15⟩ 3 15).isSome = true := by
  obtain ⟨d, hd⟩ := C7_resolver_totality ⟨2024, 11, 15⟩ 3 15 (by decide) (by decide)
    (by decide)
  rw [hd]
  rfl

/-- C8 counterexample: the claim quantifies over every integer month offset, but a large
offset pushes the target year past 9999 and `add_months` raises (returns no date)
instead of returning the date in the carried target month. -/
theorem C8_counterexample : add_months ⟨2024, 11, 15⟩ 120000 15 = none := by decide

/-- C8 (amended): for cycle day in [1,31] and a target year within 1..9999, `add_months`
returns the date in the month obtained by adding the offset to the base month index with
proper carry (floor division / Euclidean remainder by 12, so negative offsets roll
backward), with day-of-month `min(cycle_day, last day of target month)`; in particular
`resolve(date(2024,11,15), 3, 15) = date(2025,2,15)`, cycle day 31 applied to 30-day
April yields day 30, and applied to February yields 28 in 2023 and 29 in leap 2024. -/
theorem C8_resolver_correct :
    (∀ (b : Date) (months cycle_day : Int), 1 ≤ cycle_day → cycle_day ≤ 31 →
      1 ≤ b.year + (b.month - 1 + months).fdiv 12 →
      b.year + (b.month - 1 + months).fdiv 12 ≤ 9999 →
      add_months b months cycle_day =
        some ⟨b.year + (b.month - 1 + months).fdiv 12,
          (b.month - 1 + months).emod 12 + 1,
          min cycle_day (daysInMonth (b.year + (b.month - 1 + months).fdiv 12)
            ((b.month - 1 + months).emod 12 + 1))⟩)
    ∧ add_months ⟨2024, 11, 15⟩ 3 15 = some ⟨2025, 2, 15⟩
    ∧ add_months ⟨2024, 1, 31⟩ 3 31 = some ⟨2024, 4, 30⟩
    ∧ add_months ⟨2023, 1, 15⟩ 1 31 = some ⟨2023, 2, 28⟩
    ∧ add_months ⟨2024, 1, 15⟩ 1 31 = some ⟨2024, 2, 29⟩ :=
  ⟨fun b months cycle_day hcd _ hy1 hy2 => add_months_eq b months cycle_day hcd hy1 hy2,
    by decide, by decide, by decide, by decide⟩

theorem C8_witness : add_months ⟨2024, 1, 31⟩ 3 31 = some ⟨2024, 4, 30⟩ :=
  (C8_resolver_correct.1 ⟨2024, 1, 31⟩ 3 31 (by decide) (by decide) (by decide)
    (by decide)).trans (by decide)

/-- C1 counterexample: the claim asserts every input with term length `N ≥ 1` yields
`N + 1` rows, but a first payment date late in year 9999 makes period 2's `add_months`
raise, so `build_schedule` raises (returns nothing) instead. -/
theorem C1_counterexample :
    App.build_schedule "L" 2 none ⟨9999, 12, 15⟩ ⟨9999, 12, 15⟩ 15 0 100 50 = none := by
  decide

/-- C1 (amended): whenever `build_schedule` returns (no payment date falls outside
year 9999), it returns exactly `N.toNat + 1` rows whose period indices are
`0, 1, ..., N` in order (so strictly increasing); and for term length `N ≤ 0` it always
returns, yielding exactly the single period-0 row without error. -/
theorem C1_row_count (ln : String) (N : Int) (pcd : Option Date) (isd fpd : Date)
    (cd : Int) (rate amt pay : ℚ) :
    (∀ rows, App.build_schedule ln N pcd isd fpd cd rate amt pay = some rows →
      rows.length = N.toNat + 1 ∧
      ∀ (i : Nat) (r : ScheduleRow), rows[i]? = some r → r.period = (i : Int)) ∧
    (N ≤ 0 → ∃ r, App.build_schedule ln N pcd isd fpd cd rate amt pay = some [r] ∧
      r.period = 0) := by
  constructor
  · intro rows h
    obtain ⟨rest, hloop, hrows⟩ :=
      buildScheduleFrom_inv ln N pcd isd fpd cd rate amt pay rows h
    obtain ⟨hlen, hper⟩ := buildLoop_length_periods ln N fpd cd rate pay _ N.toNat 1 _
      isd rest hloop
    subst hrows
    refine ⟨by simp [hlen], ?_⟩
    intro i r hr
    cases i with
    | zero =>
      simp only [List.getElem?_cons_zero, Option.some.injEq] at hr
      subst hr
      simp [period0Row]
    | succ i =>
      simp only [List.getElem?_cons_succ] at hr
      have := hper i r hr
      omega
  · intro hN
    refine ⟨period0Row ln pcd isd (quantize_money amt)
      (extraInterestOf pcd isd rate (quantize_money amt)), ?_, rfl⟩
    unfold App.build_schedule buildScheduleFrom
    dsimp only
    rw [Int.toNat_eq_zero.mpr hN]
    rfl

theorem C1_witness :
    (App.build_schedule "W1" 2 none ⟨2024, 1, 15⟩ ⟨2024, 2, 15⟩ 15 0 100 50).map
        List.length = some 3 ∧
    (App.build_schedule "W1" 0 none ⟨2024, 1, 15⟩ ⟨2024, 2, 15⟩ 15 0 100 50).map
        List.length = some 1 := by
  constructor
  · cases hb : App.build_schedule "W1" 2 none ⟨2024, 1, 15⟩ ⟨2024, 2, 15⟩ 15 0 100 50 with
    | none => exact absurd hb (by decide)
    | some rows =>
      have h := ((C1_row_count "W1" 2 none ⟨2024, 1, 15⟩ ⟨2024, 2, 15⟩ 15 0 100 50).1
        rows hb).1
      rw [Option.map_some', h]
      rfl
  · obtain ⟨r, hb, _⟩ :=
      (C1_row_count "W1" 0 none ⟨2024, 1, 15⟩ ⟨2024, 2, 15⟩ 15 0 100 50).2 (by decide)
    rw [hb]
    rfl

/-- C5 counterexample: the two engines disagree on the same input — `app.py` uses the
input interest-start date 2024-01-10 for period 0 and accrual, `app_par_actual.py`
substitutes the derived date 2024-01-15 (one month before the first payment date), so the
returned row sequences differ. -/
theorem C5_counterexample :
    App.build_schedule "L" 1 none ⟨2024, 1, 10⟩ ⟨2024, 2, 15⟩ 15 0 100 50
      ≠ AppParActual.build_schedule "L" 1 none ⟨2024, 1, 10⟩ ⟨2024, 2, 15⟩ 15 0 100 50 := by
  decide

/-- C5 (amended): the two engines return identical row sequences exactly on those inputs
whose `interest_start_date` equals `app_par_actual.py`'s derived actual interest-start
date (the cycle date one month before `first_payment_date`, replaced by
`projected_close_date` when that is later); `app_par_actual.py` otherwise ignores the
`interest_start_date` argument. -/
theorem C5_engines_agree (ln : String) (N : Int) (pcd : Option Date) (isd fpd : Date)
    (cd : Int) (rate amt pay : ℚ) (calcStart : Date)
    (hcalc : add_months fpd (-1) fpd.day = some calcStart)
    (hstart : (match pcd with
      | some p => if dateLtb calcStart p then p else calcStart
      | none => calcStart) = isd) :
    App.build_schedule ln N pcd isd fpd cd rate amt pay
      = AppParActual.build_schedule ln N pcd isd fpd cd rate amt pay := by
  unfold AppParActual.build_schedule
  rw [hcalc]
  dsimp only
  rw [hstart]
  rfl

theorem C5_witness :
    App.build_schedule "L" 1 none ⟨2024, 1, 15⟩ ⟨2024, 2, 15⟩ 15 0 100 50
      = AppParActual.build_schedule "L" 1 none ⟨2024, 1, 15⟩ ⟨2024, 2, 15⟩ 15 0 100 50 :=
  C5_engines_agree "L" 1 none ⟨2024, 1, 15⟩ ⟨2024, 2, 15⟩ 15 0 100 50 ⟨2024, 1, 15⟩
    (by decide) (by decide)

/-- Placeholder row used only as the default of `List.headD`/`List.getD` in witness
statements. -/
def dummyRow : ScheduleRow :=
  { loan_number := "", period := -1, payment_date := none, days := none,
    projected_close_date := none, beginning_balance := 0, daily_interest := none,
    interest := none, payment := none, principal := none, extra_interest := none,
    ending_balance := 0 }

/-- Reduce a successful run of either engine to a successful `buildScheduleFrom` run
(with some start date). -/
theorem either_engine_inv (ln : String) (N : Int) (pcd : Option Date) (isd fpd : Date)
    (cd : Int) (rate amt pay : ℚ) (rows : List ScheduleRow)
    (hb : App.build_schedule ln N pcd isd fpd cd rate amt pay = some rows ∨
      AppParActual.build_schedule ln N pcd isd fpd cd rate amt pay = some rows) :
    ∃ start, buildScheduleFrom ln N pcd start fpd cd rate amt pay = some rows := by
  rcases hb with hb | hb
  · exact ⟨isd, hb⟩
  · unfold AppParActual.build_schedule at hb
    split at hb
    · exact absurd hb (by simp)
    · exact ⟨_, hb⟩

/-- C9: for every input, every pair of adjacent rows of the returned schedule satisfies
`ending_balance[k] = beginning_balance[k+1]`. -/
theorem C9_balance_continuity (ln : String) (N : Int) (pcd : Option Date) (isd fpd : Date)
    (cd : Int) (rate amt pay : ℚ) (rows : List ScheduleRow)
    (h : App.build_schedule ln N pcd isd fpd cd rate amt pay = some rows)
    (i : Nat) (ri rj : ScheduleRow) (hi : rows[i]? = some ri) (hj : rows[i + 1]? = some rj) :
    ri.ending_balance = rj.beginning_balance := by
  obtain ⟨rest, hloop, hrows⟩ :=
    buildScheduleFrom_inv ln N pcd isd fpd cd rate amt pay rows h
  subst hrows
  have hch : Chained (quantize_money amt)
      (period0Row ln pcd isd (quantize_money amt)
        (extraInterestOf pcd isd rate (quantize_money amt)) :: rest) :=
    ⟨rfl, buildLoop_chained ln N fpd cd rate pay _ N.toNat 1 _ isd rest hloop⟩
  exact Chained.adjacent _ _ hch i ri rj hi hj

theorem C9_witness :
    (((App.build_schedule "W9" 1 none ⟨2024, 1, 15⟩ ⟨2024, 2, 15⟩ 15 0 100 50).getD
        []).headD dummyRow).ending_balance
      = (((App.build_schedule "W9" 1 none ⟨2024, 1, 15⟩ ⟨2024, 2, 15⟩ 15 0 100
        50).getD []).getD 1 dummyRow).beginning_balance :=
  C9_balance_continuity "W9" 1 none ⟨2024, 1, 15⟩ ⟨2024, 2, 15⟩ 15 0 100 50
    ((App.build_schedule "W9" 1 none ⟨2024, 1, 15⟩ ⟨2024, 2, 15⟩ 15 0 100 50).getD [])
    (by decide) 0 _ _ (by decide) (by decide)

/-- C10: for every input with nonnegative principal, every row of the returned schedule
(of either engine) has `ending_balance ≥ 0`; a negative computed balance is clamped to
exactly 0. -/
theorem C10_ending_nonneg (ln : String) (N : Int) (pcd : Option Date) (isd fpd : Date)
    (cd : Int) (rate amt pay : ℚ) (rows : List ScheduleRow)
    (hamt : 0 ≤ amt)
    (hb : App.build_schedule ln N pcd isd fpd cd rate amt pay = some rows ∨
      AppParActual.build_schedule ln N pcd isd fpd cd rate amt pay = some rows) :
    ∀ r ∈ rows, 0 ≤ r.ending_balance := by
  obtain ⟨start, hb'⟩ := either_engine_inv ln N pcd isd fpd cd rate amt pay rows hb
  obtain ⟨rest, hloop, hrows⟩ :=
    buildScheduleFrom_inv ln N pcd start fpd cd rate amt pay rows hb'
  subst hrows
  intro r hr
  rcases List.mem_cons.mp hr with hr | hr
  · subst hr
    exact quantize_money_nonneg hamt
  · exact buildLoop_ending_nonneg ln N fpd cd rate pay _ N.toNat 1 _ start rest hloop r hr

theorem C10_witness :
    0 ≤ (((App.build_schedule "WA" 1 none ⟨2024, 1, 15⟩ ⟨2024, 2, 15⟩ 15 0 100 50).getD
        []).headD dummyRow).ending_balance :=
  C10_ending_nonneg "WA" 1 none ⟨2024, 1, 15⟩ ⟨2024, 2, 15⟩ 15 0 100 50
    ((App.build_schedule "WA" 1 none ⟨2024, 1, 15⟩ ⟨2024, 2, 15⟩ 15 0 100 50).getD [])
    (by decide) (Or.inl (by decide)) _ (by decide)

/-- C2: for every input with term length `N ≥ 1`, in either engine, the final row of the
returned schedule has `payment = beginning_balance + interest` exactly (regardless of the
nominal monthly payment and of any extra-interest addition, both overridden by the
final-period payoff rule) and `ending_balance = 0` exactly. -/
theorem C2_final_payoff (ln : String) (N : Int) (pcd : Option Date) (isd fpd : Date)
    (cd : Int) (rate amt pay : ℚ) (rows : List ScheduleRow) (r : ScheduleRow)
    (hN : 1 ≤ N)
    (hb : App.build_schedule ln N pcd isd fpd cd rate amt pay = some rows ∨
      AppParActual.build_schedule ln N pcd isd fpd cd rate amt pay = some rows)
    (hlast : rows.getLast? = some r) :
    ∃ i, r.interest = some i ∧ r.payment = some (r.beginning_balance + i) ∧
      r.ending_balance = 0 := by
  obtain ⟨start, hb'⟩ := either_engine_inv ln N pcd isd fpd cd rate amt pay rows hb
  obtain ⟨rest, hloop, hrows⟩ :=
    buildScheduleFrom_inv ln N pcd start fpd cd rate amt pay rows hb'
  subst hrows
  obtain ⟨r', i, hlast', h1, h2, h3⟩ := buildLoop_last_payoff ln N fpd cd rate pay _
    N.toNat 1 _ start rest (by omega) (by omega) hloop
  cases rest with
  | nil => simp at hlast'
  | cons y t =>
    rw [List.getLast?_cons_cons, hlast'] at hlast
    obtain rfl := Option.some.inj hlast
    exact ⟨i, h1, h2, h3⟩

theorem C2_witness :
    (((App.build_schedule "W2" 1 none ⟨2024, 1, 15⟩ ⟨2024, 2, 15⟩ 15 0 100 50).getD
        []).getLastD dummyRow).interest = some 0 ∧
    (((App.build_schedule "W2" 1 none ⟨2024, 1, 15⟩ ⟨2024, 2, 15⟩ 15 0 100 50).getD
        []).getLastD dummyRow).payment
      = some ((((App.build_schedule "W2" 1 none ⟨2024, 1, 15⟩ ⟨2024, 2, 15⟩ 15 0 100
        50).getD []).getLastD dummyRow).beginning_balance + 0) ∧
    (((App.build_schedule "W2" 1 none ⟨2024, 1, 15⟩ ⟨2024, 2, 15⟩ 15 0 100 50).getD
        []).getLastD dummyRow).ending_balance = 0 := by
  obtain ⟨i, h1, h2, h3⟩ := C2_final_payoff "W2" 1 none ⟨2024, 1, 15⟩ ⟨2024, 2, 15⟩ 15
    0 100 50
    ((App.build_schedule "W2" 1 none ⟨2024, 1, 15⟩ ⟨2024, 2, 15⟩ 15 0 100 50).getD [])
    (((App.build_schedule "W2" 1 none ⟨2024, 1, 15⟩ ⟨2024, 2, 15⟩ 15 0 100 50).getD
      []).getLastD dummyRow)
    (by decide) (Or.inl (by decide)) (by decide)
  have h0 : (((App.build_schedule "W2" 1 none ⟨2024, 1, 15⟩ ⟨2024, 2, 15⟩ 15 0 100
      50).getD []).getLastD dummyRow).interest = some 0 := by decide
  have hi : i = 0 := by
    rw [h0] at h1
    exact (Option.some.inj h1).symm
  subst hi
  exact ⟨h1, h2, h3⟩

/-- Period-1 interest when an extra-interest amount is present: the re-rounded sum of the
period's own day-count interest and the extra amount. -/
theorem stepRow_interest_one (ln : String) (N : Int) (rate pay : ℚ) (e : ℚ)
    (balance : ℚ) (prev pd : Date) :
    (stepRow ln N rate pay (some e) 1 balance prev pd).interest
      = some (quantize_money (qadd (quantize_money (qmul
          (quantize_money (qdiv (qmul (qdiv rate 100) balance) 365))
          ((dateOrd pd - dateOrd prev : Int) : ℚ))) e)) := by
  unfold stepRow
  dsimp only
  rw [if_pos rfl]

/-- The first iteration of a nonempty loop run at period 1: payment date is
`first_payment_date` verbatim and the produced row is `stepRow` at period 1. -/
theorem buildLoop_first (ln : String) (N : Int) (fpd : Date) (cd : Int) (rate pay : ℚ)
    (extra : Option ℚ) (fuel : Nat) (balance : ℚ) (prev : Date) (l : List ScheduleRow)
    (h : buildLoop ln N fpd cd rate pay extra (fuel + 1) 1 balance prev = some l) :
    ∃ rest, l = stepRow ln N rate pay extra 1 balance prev fpd :: rest := by
  simp only [buildLoop] at h
  split at h
  · exact absurd h (by simp)
  · rename_i pd hpd
    simp only [if_true, Option.some.injEq] at hpd
    subst hpd
    split at h
    · exact absurd h (by simp)
    · rename_i rest hrec
      simp only [Option.some.injEq] at h
      exact ⟨rest, h.symm⟩

/-- C4 counterexample: the claim asserts the period-0 row's `payment_date` equals the
input `interest_start_date`, but `app_par_actual.py`'s `build_schedule` on
interest-start 2024-01-10 (first payment 2024-02-15, no projected close) emits period 0
dated 2024-01-15, the derived date one month before the first payment date. -/
theorem C4_counterexample :
    ((AppParActual.build_schedule "L" 1 none ⟨2024, 1, 10⟩ ⟨2024, 2, 15⟩ 15 0 100
        50).bind List.head?).map (fun r => r.payment_date) = some (some ⟨2024, 1, 15⟩)
    ∧ (⟨2024, 1, 15⟩ : Date) ≠ ⟨2024, 1, 10⟩ :=
  ⟨by decide, by decide⟩

/-- C4 (amended): the claim holds for `app.py`'s `build_schedule` — the period-0 row has
`payment_date = interest_start_date`, beginning and ending balance both the half-up
2dp-rounded principal, day/interest/payment/principal/daily-rate fields unset,
`projected_close_date` copied from the input, and period 1's day count accrues from
`interest_start_date` — while `app_par_actual.py` instead uses its derived actual
interest-start date for the period-0 row and accrual start. -/
theorem C4_period0 (ln : String) (N : Int) (pcd : Option Date) (isd fpd : Date)
    (cd : Int) (rate amt pay : ℚ) (rows : List ScheduleRow)
    (h : App.build_schedule ln N pcd isd fpd cd rate amt pay = some rows) :
    (∀ r0, rows.head? = some r0 →
      r0.period = 0 ∧ r0.payment_date = some isd ∧
      r0.beginning_balance = quantize_money amt ∧ r0.ending_balance = quantize_money amt ∧
      r0.days = none ∧ r0.daily_interest = none ∧ r0.interest = none ∧
      r0.payment = none ∧ r0.principal = none ∧ r0.projected_close_date = pcd) ∧
    (∀ r1, rows[1]? = some r1 →
      r1.payment_date = some fpd ∧ r1.days = some (dateOrd fpd - dateOrd isd)) := by
  obtain ⟨rest, hloop, hrows⟩ :=
    buildScheduleFrom_inv ln N pcd isd fpd cd rate amt pay rows h
  subst hrows
  constructor
  · intro r0 h0
    simp only [List.head?_cons, Option.some.injEq] at h0
    subst h0
    exact ⟨rfl, rfl, rfl, rfl, rfl, rfl, rfl, rfl, rfl, rfl⟩
  · intro r1 h1
    simp only [List.getElem?_cons_succ] at h1
    cases hk : N.toNat with
    | zero =>
      rw [hk] at hloop
      simp only [buildLoop, Option.some.injEq] at hloop
      subst hloop
      simp at h1
    | succ k =>
      rw [hk] at hloop
      obtain ⟨rest', hrest⟩ := buildLoop_first ln N fpd cd rate pay _ k
        (quantize_money amt) isd rest hloop
      subst hrest
      simp only [List.getElem?_cons_zero, Option.some.injEq] at h1
      subst h1
      exact ⟨rfl, rfl⟩

theorem C4_witness :
    (((App.build_schedule "W4" 1 none ⟨2024, 1, 10⟩ ⟨2024, 2, 15⟩ 15 0 100 50).getD
        []).headD dummyRow).payment_date = some ⟨2024, 1, 10⟩ ∧
    (((App.build_schedule "W4" 1 none ⟨2024, 1, 10⟩ ⟨2024, 2, 15⟩ 15 0 100 50).getD
        []).headD dummyRow).beginning_balance = quantize_money 100 ∧
    (((App.build_schedule "W4" 1 none ⟨2024, 1, 10⟩ ⟨2024, 2, 15⟩ 15 0 100 50).getD
        []).getD 1 dummyRow).days = some (dateOrd ⟨2024, 2, 15⟩ - dateOrd ⟨2024, 1, 10⟩) := by
  have h := C4_period0 "W4" 1 none ⟨2024, 1, 10⟩ ⟨2024, 2, 15⟩ 15 0 100 50
    ((App.build_schedule "W4" 1 none ⟨2024, 1, 10⟩ ⟨2024, 2, 15⟩ 15 0 100 50).getD [])
    (by decide)
  obtain ⟨-, hpd, hbeg, -⟩ := h.1
    (((App.build_schedule "W4" 1 none ⟨2024, 1, 10⟩ ⟨2024, 2, 15⟩ 15 0 100 50).getD
      []).headD dummyRow) (by decide)
  obtain ⟨-, hdays⟩ := h.2
    (((App.build_schedule "W4" 1 none ⟨2024, 1, 10⟩ ⟨2024, 2, 15⟩ 15 0 100 50).getD
      []).getD 1 dummyRow) (by decide)
  exact ⟨hpd, hbeg, hdays⟩

/-- C6 counterexample: the claim asserts `extra_interest` is absent when the
projected-close date does not strictly precede the interest-start date, but with
projected close equal to the interest start the period-0 row carries
`extra_interest = 0.00` (populated, not null). -/
theorem C6_counterexample :
    ((App.build_schedule "L" 1 (some ⟨2024, 1, 15⟩) ⟨2024, 1, 15⟩ ⟨2024, 2, 15⟩ 15 6
        100000 1000).bind List.head?).map (fun r => r.extra_interest) = some (some 0)
    ∧ (some (0 : ℚ) ≠ (none : Option ℚ)) :=
  ⟨by decide, by decide⟩

/-- C6 (amended): in `app.py`, `extra_interest` is populated (non-null) on the period-0
row exactly when a projected-close date is present — with value 0.00 whenever the
projected-close date falls on or after the interest-start date, thanks to the
`max(0, ...)` day clamp — absent on period 0 when no projected-close date is given, and
absent on every row with period ≥ 1. -/
theorem C6_extra_placement (ln : String) (N : Int) (pcd : Option Date) (isd fpd : Date)
    (cd : Int) (rate amt pay : ℚ) (rows : List ScheduleRow)
    (h : App.build_schedule ln N pcd isd fpd cd rate amt pay = some rows) :
    (∀ (i : Nat) (r : ScheduleRow), rows[i + 1]? = some r → r.extra_interest = none) ∧
    (pcd = none → ∀ r0, rows.head? = some r0 → r0.extra_interest = none) ∧
    (∀ p, pcd = some p → ∀ r0, rows.head? = some r0 →
      ∃ v, r0.extra_interest = some v ∧ (dateOrd isd ≤ dateOrd p → v = 0)) := by
  obtain ⟨rest, hloop, hrows⟩ :=
    buildScheduleFrom_inv ln N pcd isd fpd cd rate amt pay rows h
  subst hrows
  refine ⟨?_, ?_, ?_⟩
  · intro i r hr
    simp only [List.getElem?_cons_succ] at hr
    exact buildLoop_extra_none ln N fpd cd rate pay _ N.toNat 1 _ isd rest hloop r
      (List.getElem?_mem hr)
  · intro hpcd r0 h0
    subst hpcd
    simp only [List.head?_cons, Option.some.injEq] at h0
    subst h0
    rfl
  · intro p hpcd r0 h0
    subst hpcd
    simp only [List.head?_cons, Option.some.injEq] at h0
    subst h0
    show ∃ v, extraInterestOf (some p) isd rate (quantize_money amt) = some v ∧ _
    unfold extraInterestOf
    dsimp only
    refine ⟨_, rfl, ?_⟩
    intro hord
    have hif : (if dateOrd isd - dateOrd p < 0 then (0 : Int)
        else dateOrd isd - dateOrd p) = 0 := by
      split <;> omega
    rw [hif]
    rw [show (((0 : Int) : ℚ)) = 0 from Int.cast_zero, qmul_eq, mul_zero,
      quantize_money_zero]

theorem C6_witness :
    (((App.build_schedule "W6" 1 (some ⟨2024, 1, 15⟩) ⟨2024, 1, 15⟩ ⟨2024, 2, 15⟩ 15 6
        100000 1000).getD []).getD 1 dummyRow).extra_interest = none ∧
    (((App.build_schedule "W6" 1 none ⟨2024, 1, 15⟩ ⟨2024, 2, 15⟩ 15 6 100000
        1000).getD []).headD dummyRow).extra_interest = none ∧
    (((App.build_schedule "W6" 1 (some ⟨2024, 1, 15⟩) ⟨2024, 1, 15⟩ ⟨2024, 2, 15⟩ 15 6
        100000 1000).getD []).headD dummyRow).extra_interest = some 0 := by
  have ha := C6_extra_placement "W6" 1 (some ⟨2024, 1, 15⟩) ⟨2024, 1, 15⟩ ⟨2024, 2, 15⟩
    15 6 100000 1000
    ((App.build_schedule "W6" 1 (some ⟨2024, 1, 15⟩) ⟨2024, 1, 15⟩ ⟨2024, 2, 15⟩ 15 6
      100000 1000).getD []) (by decide)
  have hbn := C6_extra_placement "W6" 1 none ⟨2024, 1, 15⟩ ⟨2024, 2, 15⟩ 15 6 100000
    1000
    ((App.build_schedule "W6" 1 none ⟨2024, 1, 15⟩ ⟨2024, 2, 15⟩ 15 6 100000
      1000).getD []) (by decide)
  refine ⟨ha.1 0 (((App.build_schedule "W6" 1 (some ⟨2024, 1, 15⟩) ⟨2024, 1, 15⟩
      ⟨2024, 2, 15⟩ 15 6 100000 1000).getD []).getD 1 dummyRow) (by decide),
    hbn.2.1 rfl (((App.build_schedule "W6" 1 none ⟨2024, 1, 15⟩ ⟨2024, 2, 15⟩ 15 6
      100000 1000).getD []).headD dummyRow) (by decide), ?_⟩
  obtain ⟨v, hv, h0⟩ := ha.2.2 ⟨2024, 1, 15⟩ rfl
    (((App.build_schedule "W6" 1 (some ⟨2024, 1, 15⟩) ⟨2024, 1, 15⟩ ⟨2024, 2, 15⟩ 15 6
      100000 1000).getD []).headD dummyRow) (by decide)
  rw [h0 (by decide)] at hv
  exact hv

/-- C3 counterexample: the claim's formula computes extra days from the input
`interest_start_date`, but `app_par_actual.py` computes them from its derived actual
interest-start date: on projected close 2024-01-01, interest start 2024-01-11 and first
payment 2024-02-15 it stores extra interest 230.16 (14 days from the derived
2024-01-15), not the claimed 164.40 (10 days from 2024-01-11). -/
theorem C3_counterexample :
    ((AppParActual.build_schedule "L" 1 (some ⟨2024, 1, 1⟩) ⟨2024, 1, 11⟩ ⟨2024, 2, 15⟩
        15 6 100000 1000).bind List.head?).map (fun r => r.extra_interest)
      = some (some (mkRat 23016 100))
    ∧ mkRat 23016 100 ≠ quantize_money (qmul
        (quantize_money (qdiv (qmul (qdiv 6 100) (quantize_money 100000)) 365))
        ((max 0 (dateOrd ⟨2024, 1, 11⟩ - dateOrd ⟨2024, 1, 1⟩) : Int) : ℚ)) :=
  ⟨by decide, by decide⟩

/-- C3 (amended): the claim holds for `app.py`'s `build_schedule`: with a projected-close
date present, the period-0 row's `extra_interest` equals
`round(round(rate/100 * balance / 365, 2) * max(0, interest_start − projected_close), 2)`
and period 1's `interest` is the re-rounded sum of its own day-count interest and that
amount; on the concrete scenario (principal 100000.00, rate 6.00%, projected close
2024-01-01, interest start 2024-01-11) the daily rate amount is 16.44, the period-0
`extra_interest` is 164.40, and period 1's interest and payment include it
(674.04 = round(509.64 + 164.40) and 1164.40 = 1000 + 164.40). `app_par_actual.py`
instead computes the extra days from its derived actual interest-start date. -/
theorem C3_extra_interest :
    (∀ (ln : String) (N : Int) (p : Date) (isd fpd : Date) (cd : Int)
      (rate amt pay : ℚ) (rows : List ScheduleRow),
      App.build_schedule ln N (some p) isd fpd cd rate amt pay = some rows →
      (∀ r0, rows.head? = some r0 →
        r0.extra_interest = some (quantize_money
          (quantize_money (rate / 100 * quantize_money amt / 365) *
            ((max 0 (dateOrd isd - dateOrd p) : Int) : ℚ)))) ∧
      (∀ r1, rows[1]? = some r1 →
        r1.interest = some (quantize_money
          (quantize_money (quantize_money (rate / 100 * quantize_money amt / 365) *
              ((dateOrd fpd - dateOrd isd : Int) : ℚ)) +
            quantize_money (quantize_money (rate / 100 * quantize_money amt / 365) *
              ((max 0 (dateOrd isd - dateOrd p) : Int) : ℚ))))))
    ∧ (App.build_schedule "L1" 2 (some ⟨2024, 1, 1⟩) ⟨2024, 1, 11⟩ ⟨2024, 2, 11⟩ 11 6
        100000 1000).map
        (fun rows => ((rows.head?).map (fun r => r.extra_interest),
          (rows[1]?).map (fun r => (r.daily_interest, r.interest, r.payment))))
      = some (some (some (mkRat 16440 100)),
          some (some (mkRat 1644 100), some (mkRat 67404 100), some (mkRat 116440 100))) := by
  constructor
  · intro ln N p isd fpd cd rate amt pay rows h
    obtain ⟨rest, hloop, hrows⟩ :=
      buildScheduleFrom_inv ln N (some p) isd fpd cd rate amt pay rows h
    subst hrows
    have hextra : extraInterestOf (some p) isd rate (quantize_money amt)
        = some (quantize_money
          (quantize_money (rate / 100 * quantize_money amt / 365) *
            ((max 0 (dateOrd isd - dateOrd p) : Int) : ℚ))) := by
      unfold extraInterestOf
      dsimp only
      have hif : (if dateOrd isd - dateOrd p < 0 then (0 : Int)
          else dateOrd isd - dateOrd p) = max 0 (dateOrd isd - dateOrd p) := by
        split
        · exact (max_eq_left (by omega)).symm
        · exact (max_eq_right (by omega)).symm
      rw [hif, qmul_eq, qdiv_eq, qmul_eq, qdiv_eq]
    constructor
    · intro r0 h0
      simp only [List.head?_cons, Option.some.injEq] at h0
      subst h0
      exact hextra
    · intro r1 h1
      simp only [List.getElem?_cons_succ] at h1
      cases hk : N.toNat with
      | zero =>
        rw [hk] at hloop
        simp only [buildLoop, Option.some.injEq] at hloop
        subst hloop
        simp at h1
      | succ k =>
        rw [hk] at hloop
        obtain ⟨rest', hrest⟩ := buildLoop_first ln N fpd cd rate pay _ k
          (quantize_money amt) isd rest hloop
        subst hrest
        simp only [List.getElem?_cons_zero, Option.some.injEq] at h1
        subst h1
        rw [hextra, stepRow_interest_one]
        simp only [qadd_eq, qmul_eq, qdiv_eq]
  · decide

theorem C3_witness :
    (((App.build_schedule "L1" 2 (some ⟨2024, 1, 1⟩) ⟨2024, 1, 11⟩ ⟨2024, 2, 11⟩ 11 6
        100000 1000).getD []).headD dummyRow).extra_interest
      = some (quantize_money
          (quantize_money ((6 : ℚ) / 100 * quantize_money 100000 / 365) *
            ((max 0 (dateOrd ⟨2024, 1, 11⟩ - dateOrd ⟨2024, 1, 1⟩) : Int) : ℚ))) := by
  have h := (C3_extra_interest.1 "L1" 2 ⟨2024, 1, 1⟩ ⟨2024, 1, 11⟩ ⟨2024, 2, 11⟩ 11 6
    100000 1000
    ((App.build_schedule "L1" 2 (some ⟨2024, 1, 1⟩) ⟨2024, 1, 11⟩ ⟨2024, 2, 11⟩ 11 6
      100000 1000).getD []) (by decide)).1
  exact h _ (by decide)
